import Mathlib

/-!
# khatru: the Elasticsearch storage backend and the WebSocket write guard

A shallow embedding of `storage/elasticsearch/elasticsearch.go` and `websocket.go`.

* Go `error` values are `Option String` (`none` is `nil`).
* The completion channel `done` of `SaveEvent` / `DeleteEvent` is embedded by the
  operations performed on it: a callback is the list of channel operations it executes,
  and the receive `<-done` of the caller reads the first of them.
* The collaborators that live outside the repository (the bulk indexer, `encoding/json`,
  the Elasticsearch client, the websocket transport) are parameters of the embedded
  functions.
-/

namespace Khatru

/-- A Go `error`: `none` is `nil`, `some msg` is a non-nil error whose text is `msg`. -/
abbrev GoError := Option String

/-- The fields of `nostr.Event`. -/
structure Event where
  ID : String
  PubKey : String
  CreatedAt : Int
  Kind : Int
  Tags : List (List String)
  Content : String
  Sig : String
deriving DecidableEq, Repr

namespace Elasticsearch

/-- The `Error` member of `esutil.BulkIndexerResponseItem` (fields `Type` and `Reason`). -/
structure ResponseError where
  Typ : String
  Reason : String
deriving DecidableEq, Repr

/-- The response the bulk indexer hands to a callback (`esutil.BulkIndexerResponseItem`). -/
structure BulkIndexerResponseItem where
  Index : String
  DocumentID : String
  Version : Int
  Result : String
  Status : Int
  SeqNo : Int
  PrimTerm : Int
  Error : ResponseError
deriving DecidableEq, Repr

/-- One operation on the channel `done := make(chan error)`:
`done <- v` or `close(done)`. -/
inductive ChanOp where
  | send (v : GoError)
  | close
deriving DecidableEq, Repr

/-- The item passed to `bi.Add` (`esutil.BulkIndexerItem`). `Body` is `none` when the
field is left unset. A callback is embedded as the list of operations it performs on
`done`, in program order; the `ctx` and `item` arguments, which no callback of the
source reads, are left out. -/
structure BulkIndexerItem where
  Action : String
  DocumentID : String
  Body : Option String
  OnSuccess : BulkIndexerResponseItem → List ChanOp
  OnFailure : BulkIndexerResponseItem → GoError → List ChanOp

/-- A callback invocation made by a worker of the bulk indexer. -/
inductive Callback where
  | success (res : BulkIndexerResponseItem)
  | failure (res : BulkIndexerResponseItem) (err : GoError)
deriving DecidableEq, Repr

/-- The behaviour of the bulk indexer `ess.bi` (external): what `Add` returns for an item
and which callbacks its workers later invoke for it, in order. -/
structure BulkIndexer where
  Add : BulkIndexerItem → GoError
  invokes : BulkIndexerItem → List Callback

/-- The functions of `encoding/json` used by the storage (external): each returns the
text and the error of `json.Marshal`. -/
structure JSON where
  MarshalEvent : Option Event → String × GoError
  MarshalResponse : BulkIndexerResponseItem → String × GoError

/-- Running one callback invocation on an item: the channel operations it performs. -/
def Callback.run (item : BulkIndexerItem) : Callback → List ChanOp
  | .success res => item.OnSuccess res
  | .failure res err => item.OnFailure res err

/-- The operations the workers perform on `done` for an accepted item. -/
def BulkIndexer.deliver (bi : BulkIndexer) (item : BulkIndexerItem) : List ChanOp :=
  (bi.invokes item).flatMap (Callback.run item)

/-- The receive `<-done` on the unbuffered channel, given the operations the other side
performs on it in order: a send hands over its value, a close yields the zero value
`nil`, and with no operation at all the receiver stays parked (`none`). The second
component is what is left of the other side. -/
def chanRecv : List ChanOp → Option (GoError × List ChanOp)
  | [] => none
  | ChanOp.send v :: rest => some (v, rest)
  | ChanOp.close :: rest => some (none, rest)

/-- What a call did, in order. -/
inductive Effect where
  | add (item : BulkIndexerItem) (result : GoError)
  | recv (v : GoError)
  | log (line : String)

/-- How a call ends. -/
inductive Outcome where
  | returned (err : GoError)
  | blocked
  | panicked
deriving DecidableEq, Repr

/-- An execution of `SaveEvent` or `DeleteEvent`. -/
structure Run where
  outcome : Outcome
  effects : List Effect

/-- Whether an effect is a completed receive from `done`. -/
def Effect.isRecv : Effect → Bool
  | .recv _ => true
  | _ => false

/-- Whether an effect is a call of `bi.Add`. -/
def Effect.isAdd : Effect → Bool
  | .add _ _ => true
  | _ => false

/-- Number of values the caller took from `done`. -/
def Run.recvs (r : Run) : Nat := r.effects.countP Effect.isRecv

/-- `fmt.Errorf` with an already formatted text. -/
def Errorf (text : String) : GoError := some text

/-- `OnSuccess` of `DeleteEvent`. -/
def deleteOnSuccess (_res : BulkIndexerResponseItem) : List ChanOp :=
  [ChanOp.close]

/-- `OnFailure` of `DeleteEvent`. -/
def deleteOnFailure (json : JSON) (res : BulkIndexerResponseItem) (err : GoError) :
    List ChanOp :=
  match err with
  | some e => [ChanOp.send (some e)]
  | none =>
    -- ok if deleted item not found
    if res.Status = 404 then
      [ChanOp.close]
    else
      let txt := (json.MarshalResponse res).1
      let err := Errorf ("ERROR: " ++ txt)
      [ChanOp.send err]

/-- The item `DeleteEvent` submits. -/
def deleteItem (json : JSON) (id : String) : BulkIndexerItem :=
  { Action := "delete"
    DocumentID := id
    Body := none
    OnSuccess := deleteOnSuccess
    OnFailure := deleteOnFailure json }

/-- The tail shared by `SaveEvent` and `DeleteEvent` after `Add` accepted the item:
`err = <-done; if err != nil { log.Println(tag, err) }; return err`. -/
def awaitDone (tag : String) (item : BulkIndexerItem) (ops : List ChanOp) : Run :=
  match chanRecv ops with
  | none => { outcome := Outcome.blocked, effects := [Effect.add item none] }
  | some (err, _) =>
    match err with
    | some e =>
      { outcome := Outcome.returned (some e)
        effects := [Effect.add item none, Effect.recv (some e), Effect.log (tag ++ " " ++ e)] }
    | none =>
      { outcome := Outcome.returned none
        effects := [Effect.add item none, Effect.recv none] }

/-- `ElasticsearchStorage.DeleteEvent`. -/
def DeleteEvent (bi : BulkIndexer) (json : JSON) (id : String) (_pubkey : String) : Run :=
  let item := deleteItem json id
  match bi.Add item with
  | some e => { outcome := Outcome.returned (some e), effects := [Effect.add item (some e)] }
  | none => awaitDone "DEL" item (bi.deliver item)

/-- `OnSuccess` of `SaveEvent`. -/
def saveOnSuccess (_res : BulkIndexerResponseItem) : List ChanOp :=
  [ChanOp.close]

/-- `OnFailure` of `SaveEvent`. -/
def saveOnFailure (res : BulkIndexerResponseItem) (err : GoError) : List ChanOp :=
  match err with
  | some e => [ChanOp.send (some e)]
  | none =>
    let err := Errorf ("ERROR: " ++ res.Error.Typ ++ ": " ++ res.Error.Reason)
    [ChanOp.send err]

/-- The item `SaveEvent` submits. -/
def saveItem (event : Event) (data : String) : BulkIndexerItem :=
  { Action := "index"
    DocumentID := event.ID
    Body := some data
    OnSuccess := saveOnSuccess
    OnFailure := saveOnFailure }

/-- `ElasticsearchStorage.SaveEvent`. The argument is a pointer: `none` is `nil`, whose
dereference `event.ID` panics. -/
def SaveEvent (bi : BulkIndexer) (json : JSON) (event : Option Event) : Run :=
  match json.MarshalEvent event with
  | (_, some e) => { outcome := Outcome.returned (some e), effects := [] }
  | (data, none) =>
    match event with
    | none => { outcome := Outcome.panicked, effects := [] }
    | some ev =>
      let item := saveItem ev data
      match bi.Add item with
      | some e =>
        { outcome := Outcome.returned (some e), effects := [Effect.add item (some e)] }
      | none => awaitDone "SAVE" item (bi.deliver item)

/-! ### Init -/

/-- The package variable `indexMapping`. -/
def indexMapping : String :=
  "\n\x7b\n\t\"settings\": \x7b\n\t\t\"number_of_shards\": 1,\n\t\t\"number_of_replicas\": 0\n\t\x7d,\n\t\"mappings\": \x7b\n\t\t\"dynamic\": false,\n\t\t\"properties\": \x7b\n\t\t\t\"id\": \x7b\"type\": \"keyword\"\x7d,\n\t\t\t\"pubkey\": \x7b\"type\": \"keyword\"\x7d,\n\t\t\t\"kind\": \x7b\"type\": \"integer\"\x7d,\n\t\t\t\"tags\": \x7b\"type\": \"keyword\"\x7d,\n\t\t\t\"created_at\": \x7b\"type\": \"date\"\x7d\n\t\t\x7d\n\t\x7d\n\x7d\n"

/-- Whether the characters `sub` stand at the start of `s`. -/
def startsWith : List Char → List Char → Bool
  | _, [] => true
  | [], _ :: _ => false
  | c :: s, d :: sub => c == d && startsWith s sub

/-- Whether the characters `sub` occur consecutively somewhere in `s`. -/
def containsChars : List Char → List Char → Bool
  | [], sub => startsWith [] sub
  | c :: s, sub => startsWith (c :: s) sub || containsChars s sub

/-- `strings.Contains`. -/
def stringsContains (s substr : String) : Bool :=
  containsChars s.data substr.data

/-- What the code reads of the response of `es.Indices.Create`: `res.IsError()` and the
text `io.ReadAll(res.Body)` yields (its error is dropped by the source). -/
structure CreateResponse where
  IsError : Bool
  Body : String
deriving DecidableEq, Repr

/-- The fields of `esutil.BulkIndexerConfig` that `Init` sets, apart from the client.
`FlushInterval` is a `time.Duration`, in nanoseconds. -/
structure BulkIndexerConfig where
  Index : String
  NumWorkers : Int
  FlushInterval : Int
deriving DecidableEq, Repr

/-- The Elasticsearch client library as `Init` uses it (external): the error of
`elasticsearch.NewDefaultClient`, the result of `es.Indices.Create` for an index name
and a body, and the error of `esutil.NewBulkIndexer`. -/
structure ElasticLibrary where
  NewDefaultClient : GoError
  Create : String → String → CreateResponse × GoError
  NewBulkIndexer : BulkIndexerConfig → GoError

/-- The struct `ElasticsearchStorage`; `es` and `bi` tell whether the field has been
set. -/
structure ElasticsearchStorage where
  es : Bool
  bi : Bool
  indexName : String
deriving DecidableEq, Repr

/-- What `Init` did, in order. -/
inductive InitEffect where
  | newDefaultClient
  | createIndex (name : String) (body : String)
  | readBody
  | newBulkIndexer (cfg : BulkIndexerConfig)
deriving DecidableEq, Repr

/-- How `Init` ends: it returns, or `log.Fatalf` ends the process after printing. -/
inductive InitOutcome where
  | returned (err : GoError)
  | fatal (line : String)
deriving DecidableEq, Repr

/-- An execution of `Init`. -/
structure InitRun where
  ess : ElasticsearchStorage
  outcome : InitOutcome
  effects : List InitEffect
deriving DecidableEq, Repr

/-- `time.Second`, in nanoseconds. -/
def timeSecond : Int := 1000000000

/-- The last part of `Init`, from the comment `// bulk indexer` on; `done` is what the
call did before. -/
def startBulkIndexer (lib : ElasticLibrary) (ess : ElasticsearchStorage)
    (done : List InitEffect) : InitRun :=
  let cfg : BulkIndexerConfig :=
    { Index := ess.indexName, NumWorkers := 2, FlushInterval := 3 * timeSecond }
  match lib.NewBulkIndexer cfg with
  | some e =>
    { ess := ess
      outcome := InitOutcome.fatal ("Error creating the indexer: " ++ e)
      effects := done ++ [InitEffect.newBulkIndexer cfg] }
  | none =>
    { ess := { ess with es := true, bi := true }
      outcome := InitOutcome.returned none
      effects := done ++ [InitEffect.newBulkIndexer cfg] }

/-- `ElasticsearchStorage.Init`. -/
def Init (lib : ElasticLibrary) (ess : ElasticsearchStorage) : InitRun :=
  match lib.NewDefaultClient with
  | some e =>
    { ess := ess, outcome := InitOutcome.returned (some e)
      effects := [InitEffect.newDefaultClient] }
  | none =>
    -- todo: config
    let ess := { ess with indexName := "test" }
    let create := InitEffect.createIndex ess.indexName indexMapping
    match lib.Create ess.indexName indexMapping with
    | (_, some e) =>
      { ess := ess, outcome := InitOutcome.returned (some e)
        effects := [InitEffect.newDefaultClient, create] }
    | (res, none) =>
      if res.IsError then
        let txt := res.Body
        if !stringsContains txt "resource_already_exists_exception" then
          { ess := ess, outcome := InitOutcome.returned (Errorf txt)
            effects := [InitEffect.newDefaultClient, create, InitEffect.readBody] }
        else
          startBulkIndexer lib ess [InitEffect.newDefaultClient, create, InitEffect.readBody]
      else
        startBulkIndexer lib ess [InitEffect.newDefaultClient, create]

/-- A client library whose create-index request answers with the given response and
whose bulk indexer starts. -/
def sampleLibrary (res : CreateResponse) : ElasticLibrary :=
  { NewDefaultClient := none
    Create := fun _ _ => (res, none)
    NewBulkIndexer := fun _ => none }

/-- A storage value before `Init`. -/
def emptyStorage : ElasticsearchStorage :=
  { es := false, bi := false, indexName := "" }

/-! ### Sample inputs -/

/-- A response item with the given status. -/
def sampleResponse (status : Int) : BulkIndexerResponseItem :=
  { Index := "test", DocumentID := "abc", Version := 1, Result := "", Status := status,
    SeqNo := 0, PrimTerm := 0, Error := { Typ := "kind", Reason := "why" } }

/-- A sample event. -/
def sampleEvent : Event :=
  { ID := "abc", PubKey := "p1", CreatedAt := 1000, Kind := 1, Tags := [], Content := "hi",
    Sig := "" }

/-- A marshaller that never fails. -/
def sampleJSON : JSON :=
  { MarshalEvent := fun _ => ("data", none)
    MarshalResponse := fun _ => ("response", none) }

/-- A bulk indexer that accepts every item and invokes the given callback once. -/
def acceptingIndexer (cb : Callback) : BulkIndexer :=
  { Add := fun _ => none, invokes := fun _ => [cb] }

/-- A bulk indexer that accepts every item and never invokes a callback. -/
def silentIndexer : BulkIndexer :=
  { Add := fun _ => none, invokes := fun _ => [] }

/-- A bulk indexer that refuses every item with the given error. -/
def refusingIndexer (e : String) : BulkIndexer :=
  { Add := fun _ => some e, invokes := fun _ => [] }

end Elasticsearch

/-! ## websocket.go -/

/-- The struct `nostr.EventEnvelope`; `SubscriptionID` is a pointer to a string. -/
structure EventEnvelope where
  SubscriptionID : Option String
  Event : Event
deriving DecidableEq, Repr

/-- A Go value of type `any` handed to `WriteJSON`: an event envelope, or another value
(given by a description of it). -/
inductive Any where
  | eventEnvelope (env : EventEnvelope)
  | other (value : String)
deriving DecidableEq, Repr

/-- The two write primitives of the transport handle `*websocket.Conn` (external), over a
transport state `σ`: each yields the next transport state and the returned error. -/
structure Conn (σ : Type) where
  WriteJSON : σ → Any → σ × GoError
  WriteMessage : σ → Int → List UInt8 → σ × GoError

/-- The struct `WebSocket`: `conn` is the state of the transport handle, `mutex` and
`authLock` are true while the `sync.Mutex` is held. The fields `Request` and `Authed`,
which the write methods do not touch, are left out. -/
structure WebSocket (σ : Type) where
  conn : σ
  mutex : Bool
  Challenge : String
  AuthedPublicKey : String
  authLock : Bool

/-- What a write method did, in order. -/
inductive WsEffect where
  | lock
  | unlock
  | connWriteJSON (any : Any)
  | connWriteMessage (t : Int) (b : List UInt8)
deriving DecidableEq, Repr

/-- A connection together with the history of what was done on it. -/
structure WsState (σ : Type) where
  ws : WebSocket σ
  effects : List WsEffect

/-- `ws.mutex.Lock()`: takes the mutex when it is free; on a held mutex the caller stays
parked (`none`). -/
def mutexLock {σ : Type} (s : WsState σ) : Option (WsState σ) :=
  if s.ws.mutex then none
  else some { ws := { s.ws with mutex := true }, effects := s.effects ++ [WsEffect.lock] }

/-- `ws.mutex.Unlock()`. -/
def mutexUnlock {σ : Type} (s : WsState σ) : WsState σ :=
  { ws := { s.ws with mutex := false }, effects := s.effects ++ [WsEffect.unlock] }

/-- `ws.conn.WriteJSON(any)`. -/
def connWriteJSON {σ : Type} (c : Conn σ) (any : Any) (s : WsState σ) : WsState σ × GoError :=
  let r := c.WriteJSON s.ws.conn any
  ({ ws := { s.ws with conn := r.1 }, effects := s.effects ++ [WsEffect.connWriteJSON any] },
    r.2)

/-- `ws.conn.WriteMessage(t, b)`. -/
def connWriteMessage {σ : Type} (c : Conn σ) (t : Int) (b : List UInt8) (s : WsState σ) :
    WsState σ × GoError :=
  let r := c.WriteMessage s.ws.conn t b
  ({ ws := { s.ws with conn := r.1 }
     effects := s.effects ++ [WsEffect.connWriteMessage t b] },
    r.2)

/-- `WebSocket.WriteJSON`: lock, the transport write, then the deferred unlock; the
value returned is the one of the transport write. `none`: the call is parked in
`Lock`. -/
def WriteJSON {σ : Type} (c : Conn σ) (any : Any) (s : WsState σ) :
    Option (WsState σ × GoError) :=
  match mutexLock s with
  | none => none
  | some s1 =>
    let r := connWriteJSON c any s1
    some (mutexUnlock r.1, r.2)

/-- `WebSocket.WriteMessage`. -/
def WriteMessage {σ : Type} (c : Conn σ) (t : Int) (b : List UInt8) (s : WsState σ) :
    Option (WsState σ × GoError) :=
  match mutexLock s with
  | none => none
  | some s1 =>
    let r := connWriteMessage c t b s1
    some (mutexUnlock r.1, r.2)

/-- `WebSocket.SendEvent`. -/
def SendEvent {σ : Type} (c : Conn σ) (subscriptionId : String) (event : Event)
    (s : WsState σ) : Option (WsState σ × GoError) :=
  WriteJSON c (Any.eventEnvelope { SubscriptionID := some subscriptionId, Event := event }) s

/-- A transport that counts the writes it has accepted and fails once `limit` writes
have been made. -/
def sampleConn (limit : Nat) : Conn Nat :=
  { WriteJSON := fun n _ => if n < limit then (n + 1, none) else (n, some "closed")
    WriteMessage := fun n _ _ => if n < limit then (n + 1, none) else (n, some "closed") }

/-- A fresh connection over the counting transport. -/
def sampleSocket : WsState Nat :=
  { ws := { conn := 0, mutex := false, Challenge := "c", AuthedPublicKey := "",
            authLock := false }
    effects := [] }

/-! ### Concurrent producers on one connection

The producers are interleaved by a schedule. Each producer runs its calls one after the
other; inside a call it stands before `Lock`, holds the guard before the transport
write, is inside the transport write, or has left it with the deferred `Unlock` still
to run. -/

/-- A call of one of the three write methods. -/
inductive Call where
  | writeJSON (any : Any)
  | writeMessage (t : Int) (b : List UInt8)
  | sendEvent (subscriptionId : String) (event : Event)
deriving DecidableEq, Repr

/-- The transport write a call makes: `SendEvent` goes through `WriteJSON` with the
envelope. -/
def Call.transportWrite : Call → WsEffect
  | Call.writeJSON any => WsEffect.connWriteJSON any
  | Call.writeMessage t b => WsEffect.connWriteMessage t b
  | Call.sendEvent subscriptionId event =>
    WsEffect.connWriteJSON
      (Any.eventEnvelope { SubscriptionID := some subscriptionId, Event := event })

/-- Where a producer stands in its current call. -/
inductive PC where
  | atLock
  | holding
  | writing
  | written
deriving DecidableEq, Repr

/-- A producer: the calls it still has to make (the first one is the current call) and
where it stands in the current call. -/
structure Producer where
  calls : List Call
  pc : PC
deriving DecidableEq, Repr

/-- What is seen on the transport: a write of a producer begins, the write of a producer
puts some bytes of its message on the connection, a write of a producer returns. -/
inductive WireEvent where
  | writeBegins (producer : Nat) (write : WsEffect)
  | bytes (producer : Nat)
  | writeEnds (producer : Nat)
deriving DecidableEq, Repr

/-- One connection shared by producers: the guard `ws.mutex`, the producers, and what
has happened on the transport so far. -/
structure Shared where
  mutex : Bool
  producers : List Producer
  wire : List WireEvent
deriving DecidableEq, Repr

/-- What the scheduler lets a producer do: go on to its next statement, or (inside the
transport write) put more bytes on the connection. -/
inductive Move where
  | advance
  | emit
deriving DecidableEq, Repr

/-- One scheduled step of producer `i`. A step that is not possible (a producer parked
in `Lock` on a held guard, a producer without calls, bytes outside a transport write)
leaves the state as it is. -/
def step (s : Shared) (i : Nat) (m : Move) : Shared :=
  match s.producers[i]? with
  | none => s
  | some p =>
    match p.calls with
    | [] => s
    | c :: rest =>
      match p.pc, m with
      | PC.atLock, Move.advance =>
        -- ws.mutex.Lock()
        if s.mutex then s
        else
          { s with
            mutex := true
            producers := s.producers.set i { p with pc := PC.holding } }
      | PC.holding, Move.advance =>
        -- ws.conn.WriteJSON / ws.conn.WriteMessage is entered
        { s with
          producers := s.producers.set i { p with pc := PC.writing }
          wire := s.wire ++ [WireEvent.writeBegins i c.transportWrite] }
      | PC.writing, Move.emit =>
        { s with wire := s.wire ++ [WireEvent.bytes i] }
      | PC.writing, Move.advance =>
        -- the transport write returns (with or without an error)
        { s with
          producers := s.producers.set i { p with pc := PC.written }
          wire := s.wire ++ [WireEvent.writeEnds i] }
      | PC.written, Move.advance =>
        -- the deferred ws.mutex.Unlock(), then the call returns
        { s with
          mutex := false
          producers := s.producers.set i { calls := rest, pc := PC.atLock } }
      | _, _ => s

/-- The connection before any producer has started: the guard is free and every producer
stands before the `Lock` of its first call. -/
def start (programs : List (List Call)) : Shared :=
  { mutex := false
    producers := programs.map fun calls => { calls := calls, pc := PC.atLock }
    wire := [] }

/-- Running a schedule: a list of producer numbers with the move each one makes. -/
def run (s : Shared) (schedule : List (Nat × Move)) : Shared :=
  schedule.foldl (fun s m => step s m.1 m.2) s

/-- Reading the transport history from the left. The state is `some none` when no write
is in progress, `some (some w)` inside the write of producer `w`, and `none` once a
write has begun inside another one or bytes have come from a producer that is not the
one writing. -/
def wireStep : Option (Option Nat) → WireEvent → Option (Option Nat)
  | some none, WireEvent.writeBegins i _ => some (some i)
  | some (some w), WireEvent.bytes i => if i = w then some (some w) else none
  | some (some w), WireEvent.writeEnds i => if i = w then some none else none
  | _, _ => none

/-- The state reached after the whole transport history. -/
def wireScan (wire : List WireEvent) : Option (Option Nat) :=
  wire.foldl wireStep (some none)

/-- The transport history is a sequence of whole writes: every write begins when no
other is in progress and all bytes between its begin and its end are its own. -/
def serialised (wire : List WireEvent) : Bool :=
  (wireScan wire).isSome

/-- Two producers that write two messages each. -/
def samplePrograms : List (List Call) :=
  [[Call.writeJSON (Any.other "a"), Call.sendEvent "sub1" Elasticsearch.sampleEvent],
   [Call.writeMessage 1 [104, 105], Call.writeJSON (Any.other "b")]]

/-- A schedule in which the second producer tries to get in while the first one is
writing. -/
def sampleSchedule : List (Nat × Move) :=
  [(0, Move.advance), (1, Move.advance), (0, Move.advance), (1, Move.advance),
   (0, Move.emit), (1, Move.emit), (1, Move.advance), (0, Move.emit), (0, Move.advance),
   (1, Move.advance), (0, Move.advance), (1, Move.advance), (1, Move.advance),
   (0, Move.advance), (1, Move.emit), (1, Move.advance), (1, Move.advance)]

/-- The invariant of the guard: either the guard is free, every producer stands before
`Lock` and no write is in progress on the transport; or the guard is held, one producer
`i` is past `Lock`, every other producer stands before `Lock`, and the write in progress
on the transport, if any, is the one of `i`. -/
def Inv (s : Shared) : Prop :=
  (s.mutex = false ∧
    (∀ (j : Nat) (q : Producer), s.producers[j]? = some q → q.pc = PC.atLock) ∧
    wireScan s.wire = some none) ∨
  (∃ (i : Nat) (p : Producer), s.mutex = true ∧ s.producers[i]? = some p ∧
    p.pc ≠ PC.atLock ∧
    (∀ (j : Nat) (q : Producer), j ≠ i → s.producers[j]? = some q → q.pc = PC.atLock) ∧
    wireScan s.wire = some (if p.pc = PC.writing then some i else none))

/-! ## Theorems -/

namespace Elasticsearch

/-- The effects of `awaitDone` always start with the accepted `Add`, and any other
`Add` effect in them is that one. -/
theorem awaitDone_add_mem (tag : String) (item item2 : BulkIndexerItem) (ops : List ChanOp)
    (result : GoError) (h : Effect.add item2 result ∈ (awaitDone tag item ops).effects) :
    item2 = item ∧ result = none := by
  unfold awaitDone at h
  cases hr : chanRecv ops with
  | none => simpa [hr] using h
  | some p =>
    obtain ⟨err, rest⟩ := p
    cases err <;> simpa [hr] using h

/-- When `DeleteEvent` has called `Add` with result `result`, the item was the delete
item and `result` is what the indexer answers for it. -/
theorem deleteEvent_add_mem (bi : BulkIndexer) (json : JSON) (id pubkey : String)
    (item : BulkIndexerItem) (result : GoError)
    (h : Effect.add item result ∈ (DeleteEvent bi json id pubkey).effects) :
    item = deleteItem json id ∧ bi.Add (deleteItem json id) = result := by
  unfold DeleteEvent at h
  cases hadd : bi.Add (deleteItem json id) with
  | some e =>
    simp only [hadd, List.mem_singleton, Effect.add.injEq] at h
    exact ⟨h.1, h.2.symm⟩
  | none =>
    simp only [hadd] at h
    have := awaitDone_add_mem _ _ _ _ _ h
    exact ⟨this.1, this.2.symm⟩

/-- When `SaveEvent` has called `Add` with result `result`, the event was non-nil, its
serialisation succeeded, the item was the save item and `result` is the answer of the
indexer for it. -/
theorem saveEvent_add_mem (bi : BulkIndexer) (json : JSON) (event : Option Event)
    (item : BulkIndexerItem) (result : GoError)
    (h : Effect.add item result ∈ (SaveEvent bi json event).effects) :
    ∃ ev, event = some ev ∧ (json.MarshalEvent event).2 = none ∧
      item = saveItem ev (json.MarshalEvent event).1 ∧ bi.Add item = result := by
  unfold SaveEvent at h
  rcases hm : json.MarshalEvent event with ⟨data, merr⟩
  cases merr with
  | some e => simp [hm] at h
  | none =>
    cases event with
    | none => simp [hm] at h
    | some ev =>
      simp only [hm] at h
      refine ⟨ev, rfl, rfl, ?_⟩
      cases hadd : bi.Add (saveItem ev data) with
      | some e =>
        simp only [hadd, List.mem_singleton, Effect.add.injEq] at h
        obtain ⟨h1, h2⟩ := h
        subst h1
        exact ⟨rfl, by rw [hadd, h2]⟩
      | none =>
        simp only [hadd] at h
        obtain ⟨h1, h2⟩ := awaitDone_add_mem _ _ _ _ _ h
        subst h1
        exact ⟨rfl, by rw [hadd, h2]⟩

/-- `DeleteEvent` on an accepted item is the wait on `done`. -/
theorem deleteEvent_of_accepted (bi : BulkIndexer) (json : JSON) (id pubkey : String)
    (item : BulkIndexerItem)
    (h : Effect.add item none ∈ (DeleteEvent bi json id pubkey).effects) :
    item = deleteItem json id ∧
      DeleteEvent bi json id pubkey = awaitDone "DEL" item (bi.deliver item) := by
  obtain ⟨h1, h2⟩ := deleteEvent_add_mem _ _ _ _ _ _ h
  subst h1
  refine ⟨rfl, ?_⟩
  unfold DeleteEvent
  simp only [h2]

/-- `SaveEvent` on an accepted item is the wait on `done`. -/
theorem saveEvent_of_accepted (bi : BulkIndexer) (json : JSON) (event : Option Event)
    (item : BulkIndexerItem)
    (h : Effect.add item none ∈ (SaveEvent bi json event).effects) :
    (∃ ev data, item = saveItem ev data) ∧
      SaveEvent bi json event = awaitDone "SAVE" item (bi.deliver item) := by
  obtain ⟨ev, h1, h2, h3, h4⟩ := saveEvent_add_mem _ _ _ _ _ h
  subst h1
  refine ⟨⟨ev, _, h3⟩, ?_⟩
  unfold SaveEvent
  rcases hm : json.MarshalEvent (some ev) with ⟨data, merr⟩
  rw [hm] at h2 h3
  simp only at h2 h3
  subst h2 h3
  simp only [h4]

/-- Waiting on a channel on which exactly one operation is performed. -/
theorem awaitDone_single (tag : String) (item : BulkIndexerItem) (op : ChanOp) :
    (awaitDone tag item [op]).outcome =
        Outcome.returned (match op with | ChanOp.send v => v | ChanOp.close => none) ∧
      (awaitDone tag item [op]).recvs = 1 := by
  cases op with
  | send v => cases v <;> simp [awaitDone, chanRecv, Run.recvs, Effect.isRecv]
  | close => simp [awaitDone, chanRecv, Run.recvs, Effect.isRecv]

/-- A wait on `done` whose receive gets `v` returns `v`, and the only receive it made
is the one of `v`. -/
theorem awaitDone_of_recv (tag : String) (item : BulkIndexerItem) (ops rest : List ChanOp)
    (v : GoError) (h : chanRecv ops = some (v, rest)) :
    (awaitDone tag item ops).outcome = Outcome.returned v ∧
      (awaitDone tag item ops).effects.filter Effect.isRecv = [Effect.recv v] ∧
      (awaitDone tag item ops).recvs = 1 := by
  unfold awaitDone
  cases v <;> simp [h, Run.recvs, Effect.isRecv]

/-- A wait on `done` on which nothing is ever sent or closed does not return, and has
received nothing. -/
theorem awaitDone_of_parked (tag : String) (item : BulkIndexerItem) (ops : List ChanOp)
    (h : chanRecv ops = none) :
    (awaitDone tag item ops).outcome = Outcome.blocked ∧
      (awaitDone tag item ops).recvs = 0 := by
  unfold awaitDone
  simp [h, Run.recvs, Effect.isRecv]

/-- A wait on `done` that returns `v` has received `v` from the channel. -/
theorem awaitDone_returned (tag : String) (item : BulkIndexerItem) (ops : List ChanOp)
    (v : GoError) (h : (awaitDone tag item ops).outcome = Outcome.returned v) :
    ∃ rest, chanRecv ops = some (v, rest) := by
  unfold awaitDone at h
  cases hr : chanRecv ops with
  | none => simp [hr] at h
  | some q =>
    obtain ⟨err, rest⟩ := q
    cases err with
    | none =>
      simp only [hr, Outcome.returned.injEq] at h
      exact ⟨rest, by rw [← h]⟩
    | some e =>
      simp only [hr, Outcome.returned.injEq] at h
      exact ⟨rest, by rw [← h]⟩

/-- The receive from a channel on which one operation is performed gets a value and
leaves nothing behind. -/
theorem chanRecv_single (op : ChanOp) : ∃ v, chanRecv [op] = some (v, []) := by
  cases op with
  | send v => exact ⟨v, rfl⟩
  | close => exact ⟨none, rfl⟩

/-- With one callback invoked, the operations on `done` are those of that callback. -/
theorem deliver_single (bi : BulkIndexer) (item : BulkIndexerItem) (cb : Callback)
    (h : bi.invokes item = [cb]) : bi.deliver item = Callback.run item cb := by
  simp [BulkIndexer.deliver, h]

/-- Every callback of the delete item performs one operation on `done`. -/
theorem deleteItem_callback_single (json : JSON) (id : String) (cb : Callback) :
    ∃ op, Callback.run (deleteItem json id) cb = [op] := by
  cases cb with
  | success res => exact ⟨_, rfl⟩
  | failure res err =>
    cases err with
    | some e => exact ⟨_, rfl⟩
    | none =>
      by_cases h : res.Status = 404 <;>
        simp [Callback.run, deleteItem, deleteOnFailure, h]

/-- Every callback of the save item performs one operation on `done`. -/
theorem saveItem_callback_single (ev : Event) (data : String) (cb : Callback) :
    ∃ op, Callback.run (saveItem ev data) cb = [op] := by
  cases cb with
  | success res => exact ⟨_, rfl⟩
  | failure res err => cases err <;> exact ⟨_, rfl⟩

/-- C1: when `Add` accepts the delete item and the pipeline invokes its failure callback
with `err = nil` and a response of status 404, `DeleteEvent` returns `nil`. -/
theorem deleteEvent_not_found_returns_nil (bi : BulkIndexer) (json : JSON)
    (id pubkey : String) (res : BulkIndexerResponseItem)
    (hadd : bi.Add (deleteItem json id) = none)
    (hcb : bi.invokes (deleteItem json id) = [Callback.failure res none])
    (h404 : res.Status = 404) :
    (DeleteEvent bi json id pubkey).outcome = Outcome.returned none := by
  unfold DeleteEvent
  simp only [hadd, BulkIndexer.deliver, hcb]
  simp [Callback.run, deleteItem, deleteOnFailure, h404, awaitDone, chanRecv]

theorem deleteEvent_not_found_returns_nil_witness :
    (sampleResponse 404).Status = 404 ∧
      (DeleteEvent (acceptingIndexer (Callback.failure (sampleResponse 404) none))
        sampleJSON "missing-id" "p1").outcome = Outcome.returned none :=
  ⟨rfl, deleteEvent_not_found_returns_nil _ _ _ _ _ rfl rfl rfl⟩

/-- C2: in `SaveEvent` and in `DeleteEvent`, when `bi.Add` returns a non-nil error `e`
the call returns exactly `e` and the call of `Add` is all it did: it received nothing
from the completion channel. -/
theorem add_error_returned_without_waiting (bi : BulkIndexer) (json : JSON) (e : String) :
    (∀ (id pubkey : String) (item : BulkIndexerItem),
      Effect.add item (some e) ∈ (DeleteEvent bi json id pubkey).effects →
        (DeleteEvent bi json id pubkey).outcome = Outcome.returned (some e) ∧
        (DeleteEvent bi json id pubkey).recvs = 0 ∧
        (DeleteEvent bi json id pubkey).effects.length = 1) ∧
    (∀ (event : Option Event) (item : BulkIndexerItem),
      Effect.add item (some e) ∈ (SaveEvent bi json event).effects →
        (SaveEvent bi json event).outcome = Outcome.returned (some e) ∧
        (SaveEvent bi json event).recvs = 0 ∧
        (SaveEvent bi json event).effects.length = 1) := by
  constructor
  · intro id pubkey item h
    obtain ⟨h1, h2⟩ := deleteEvent_add_mem _ _ _ _ _ _ h
    unfold DeleteEvent
    simp only [h2]
    simp [Run.recvs, Effect.isRecv]
  · intro event item h
    obtain ⟨ev, h1, h2, h3, h4⟩ := saveEvent_add_mem _ _ _ _ _ h
    subst h1
    unfold SaveEvent
    rcases hm : json.MarshalEvent (some ev) with ⟨data, merr⟩
    rw [hm] at h2 h3
    simp only at h2 h3
    subst h2 h3
    simp only [h4]
    simp [Run.recvs, Effect.isRecv]

theorem add_error_returned_without_waiting_witness :
    ((DeleteEvent (refusingIndexer "closed") sampleJSON "abc" "p1").outcome
        = Outcome.returned (some "closed") ∧
      (DeleteEvent (refusingIndexer "closed") sampleJSON "abc" "p1").recvs = 0 ∧
      (DeleteEvent (refusingIndexer "closed") sampleJSON "abc" "p1").effects.length = 1) ∧
    ((SaveEvent (refusingIndexer "closed") sampleJSON (some sampleEvent)).outcome
        = Outcome.returned (some "closed") ∧
      (SaveEvent (refusingIndexer "closed") sampleJSON (some sampleEvent)).recvs = 0 ∧
      (SaveEvent (refusingIndexer "closed") sampleJSON (some sampleEvent)).effects.length = 1) :=
  ⟨(add_error_returned_without_waiting (refusingIndexer "closed") sampleJSON "closed").1
      "abc" "p1" (deleteItem sampleJSON "abc") (List.mem_singleton.mpr rfl),
   (add_error_returned_without_waiting (refusingIndexer "closed") sampleJSON "closed").2
      (some sampleEvent) (saveItem sampleEvent "data") (List.mem_singleton.mpr rfl)⟩

/-- C3: every invocation of a callback of a save or delete item performs exactly one
operation on the completion channel (one send or one close). For an accepted call:
when the pipeline invokes one callback, the receive of the caller takes the value of
that one operation, nothing is left on the channel, and the call returns that value
having made exactly that one receive; a call that returns `v` has received `v` from the
channel, by its only receive; and while nothing has been sent or closed the call does
not return. -/
theorem completion_signal_exactly_once (bi : BulkIndexer) (json : JSON) :
    (∀ (id : String) (cb : Callback),
      (Callback.run (deleteItem json id) cb).length = 1) ∧
    (∀ (ev : Event) (data : String) (cb : Callback),
      (Callback.run (saveItem ev data) cb).length = 1) ∧
    (∀ (id pubkey : String) (item : BulkIndexerItem) (cb : Callback),
      Effect.add item none ∈ (DeleteEvent bi json id pubkey).effects →
      bi.invokes item = [cb] →
        ∃ v, chanRecv (Callback.run item cb) = some (v, []) ∧
          chanRecv (bi.deliver item) = some (v, []) ∧
          (DeleteEvent bi json id pubkey).outcome = Outcome.returned v ∧
          (DeleteEvent bi json id pubkey).effects.filter Effect.isRecv = [Effect.recv v] ∧
          (DeleteEvent bi json id pubkey).recvs = 1) ∧
    (∀ (event : Option Event) (item : BulkIndexerItem) (cb : Callback),
      Effect.add item none ∈ (SaveEvent bi json event).effects →
      bi.invokes item = [cb] →
        ∃ v, chanRecv (Callback.run item cb) = some (v, []) ∧
          chanRecv (bi.deliver item) = some (v, []) ∧
          (SaveEvent bi json event).outcome = Outcome.returned v ∧
          (SaveEvent bi json event).effects.filter Effect.isRecv = [Effect.recv v] ∧
          (SaveEvent bi json event).recvs = 1) ∧
    (∀ (id pubkey : String) (item : BulkIndexerItem) (v : GoError),
      Effect.add item none ∈ (DeleteEvent bi json id pubkey).effects →
      (DeleteEvent bi json id pubkey).outcome = Outcome.returned v →
        (∃ rest, chanRecv (bi.deliver item) = some (v, rest)) ∧
        (DeleteEvent bi json id pubkey).effects.filter Effect.isRecv = [Effect.recv v] ∧
        (DeleteEvent bi json id pubkey).recvs = 1) ∧
    (∀ (event : Option Event) (item : BulkIndexerItem) (v : GoError),
      Effect.add item none ∈ (SaveEvent bi json event).effects →
      (SaveEvent bi json event).outcome = Outcome.returned v →
        (∃ rest, chanRecv (bi.deliver item) = some (v, rest)) ∧
        (SaveEvent bi json event).effects.filter Effect.isRecv = [Effect.recv v] ∧
        (SaveEvent bi json event).recvs = 1) ∧
    (∀ (id pubkey : String) (item : BulkIndexerItem),
      Effect.add item none ∈ (DeleteEvent bi json id pubkey).effects →
      chanRecv (bi.deliver item) = none →
        (DeleteEvent bi json id pubkey).outcome = Outcome.blocked ∧
        (DeleteEvent bi json id pubkey).recvs = 0) ∧
    (∀ (event : Option Event) (item : BulkIndexerItem),
      Effect.add item none ∈ (SaveEvent bi json event).effects →
      chanRecv (bi.deliver item) = none →
        (SaveEvent bi json event).outcome = Outcome.blocked ∧
        (SaveEvent bi json event).recvs = 0) := by
  refine ⟨?_, ?_, ?_, ?_, ?_, ?_, ?_, ?_⟩
  · intro id cb
    obtain ⟨op, h⟩ := deleteItem_callback_single json id cb
    simp [h]
  · intro ev data cb
    obtain ⟨op, h⟩ := saveItem_callback_single ev data cb
    simp [h]
  · intro id pubkey item cb hacc hcb
    obtain ⟨hitem, hrun⟩ := deleteEvent_of_accepted _ _ _ _ _ hacc
    subst hitem
    obtain ⟨op, hop⟩ := deleteItem_callback_single json id cb
    obtain ⟨v, hv⟩ := chanRecv_single op
    have hd := deliver_single bi _ cb hcb
    have hrecv : chanRecv (bi.deliver (deleteItem json id)) = some (v, []) := by
      rw [hd, hop, hv]
    refine ⟨v, by rw [hop, hv], hrecv, ?_⟩
    rw [hrun]
    exact awaitDone_of_recv _ _ _ _ v hrecv
  · intro event item cb hacc hcb
    obtain ⟨⟨ev, data, hitem⟩, hrun⟩ := saveEvent_of_accepted _ _ _ _ hacc
    subst hitem
    obtain ⟨op, hop⟩ := saveItem_callback_single ev data cb
    obtain ⟨v, hv⟩ := chanRecv_single op
    have hd := deliver_single bi _ cb hcb
    have hrecv : chanRecv (bi.deliver (saveItem ev data)) = some (v, []) := by
      rw [hd, hop, hv]
    refine ⟨v, by rw [hop, hv], hrecv, ?_⟩
    rw [hrun]
    exact awaitDone_of_recv _ _ _ _ v hrecv
  · intro id pubkey item v hacc hret
    obtain ⟨_, hrun⟩ := deleteEvent_of_accepted _ _ _ _ _ hacc
    rw [hrun] at hret ⊢
    obtain ⟨rest, hrecv⟩ := awaitDone_returned _ _ _ v hret
    exact ⟨⟨rest, hrecv⟩, (awaitDone_of_recv _ _ _ _ v hrecv).2⟩
  · intro event item v hacc hret
    obtain ⟨_, hrun⟩ := saveEvent_of_accepted _ _ _ _ hacc
    rw [hrun] at hret ⊢
    obtain ⟨rest, hrecv⟩ := awaitDone_returned _ _ _ v hret
    exact ⟨⟨rest, hrecv⟩, (awaitDone_of_recv _ _ _ _ v hrecv).2⟩
  · intro id pubkey item hacc hnone
    obtain ⟨_, hrun⟩ := deleteEvent_of_accepted _ _ _ _ _ hacc
    rw [hrun]
    exact awaitDone_of_parked _ _ _ hnone
  · intro event item hacc hnone
    obtain ⟨_, hrun⟩ := saveEvent_of_accepted _ _ _ _ hacc
    rw [hrun]
    exact awaitDone_of_parked _ _ _ hnone

theorem completion_signal_exactly_once_witness :
    (∃ v,
      chanRecv (Callback.run (deleteItem sampleJSON "abc")
        (Callback.failure (sampleResponse 500) none)) = some (v, []) ∧
      chanRecv ((acceptingIndexer (Callback.failure (sampleResponse 500) none)).deliver
        (deleteItem sampleJSON "abc")) = some (v, []) ∧
      (DeleteEvent (acceptingIndexer (Callback.failure (sampleResponse 500) none))
        sampleJSON "abc" "p1").outcome = Outcome.returned v ∧
      (DeleteEvent (acceptingIndexer (Callback.failure (sampleResponse 500) none))
        sampleJSON "abc" "p1").effects.filter Effect.isRecv = [Effect.recv v] ∧
      (DeleteEvent (acceptingIndexer (Callback.failure (sampleResponse 500) none))
        sampleJSON "abc" "p1").recvs = 1) ∧
    (∃ v,
      chanRecv (Callback.run (saveItem sampleEvent "data")
        (Callback.failure (sampleResponse 0) (some "timeout"))) = some (v, []) ∧
      chanRecv ((acceptingIndexer (Callback.failure (sampleResponse 0) (some "timeout"))).deliver
        (saveItem sampleEvent "data")) = some (v, []) ∧
      (SaveEvent (acceptingIndexer (Callback.failure (sampleResponse 0) (some "timeout")))
        sampleJSON (some sampleEvent)).outcome = Outcome.returned v ∧
      (SaveEvent (acceptingIndexer (Callback.failure (sampleResponse 0) (some "timeout")))
        sampleJSON (some sampleEvent)).effects.filter Effect.isRecv = [Effect.recv v] ∧
      (SaveEvent (acceptingIndexer (Callback.failure (sampleResponse 0) (some "timeout")))
        sampleJSON (some sampleEvent)).recvs = 1) ∧
    ((∃ rest, chanRecv ((acceptingIndexer (Callback.failure (sampleResponse 0)
        (some "timeout"))).deliver (deleteItem sampleJSON "abc"))
          = some (some "timeout", rest)) ∧
      (DeleteEvent (acceptingIndexer (Callback.failure (sampleResponse 0) (some "timeout")))
        sampleJSON "abc" "p1").effects.filter Effect.isRecv
          = [Effect.recv (some "timeout")] ∧
      (DeleteEvent (acceptingIndexer (Callback.failure (sampleResponse 0) (some "timeout")))
        sampleJSON "abc" "p1").recvs = 1) ∧
    ((SaveEvent silentIndexer sampleJSON (some sampleEvent)).outcome = Outcome.blocked ∧
      (SaveEvent silentIndexer sampleJSON (some sampleEvent)).recvs = 0) :=
  ⟨(completion_signal_exactly_once
      (acceptingIndexer (Callback.failure (sampleResponse 500) none)) sampleJSON).2.2.1
      "abc" "p1" (deleteItem sampleJSON "abc") (Callback.failure (sampleResponse 500) none)
      (List.mem_cons_self _ _) rfl,
   (completion_signal_exactly_once
      (acceptingIndexer (Callback.failure (sampleResponse 0) (some "timeout")))
      sampleJSON).2.2.2.1
      (some sampleEvent) (saveItem sampleEvent "data")
      (Callback.failure (sampleResponse 0) (some "timeout"))
      (List.mem_cons_self _ _) rfl,
   (completion_signal_exactly_once
      (acceptingIndexer (Callback.failure (sampleResponse 0) (some "timeout")))
      sampleJSON).2.2.2.2.1
      "abc" "p1" (deleteItem sampleJSON "abc") (some "timeout")
      (List.mem_cons_self _ _) rfl,
   (completion_signal_exactly_once silentIndexer sampleJSON).2.2.2.2.2.2.2
      (some sampleEvent) (saveItem sampleEvent "data") (List.mem_cons_self _ _) rfl⟩

/-- C4: for an accepted save or delete, the call returns what the callback posted: `nil`
when the success callback is invoked, and the same error `e` when the failure callback
is invoked with a non-nil error `e`. -/
theorem returned_value_is_posted_outcome (bi : BulkIndexer) (json : JSON) :
    (∀ (id pubkey : String) (item : BulkIndexerItem) (res : BulkIndexerResponseItem),
      Effect.add item none ∈ (DeleteEvent bi json id pubkey).effects →
      bi.invokes item = [Callback.success res] →
        (DeleteEvent bi json id pubkey).outcome = Outcome.returned none) ∧
    (∀ (id pubkey : String) (item : BulkIndexerItem) (res : BulkIndexerResponseItem)
      (e : String),
      Effect.add item none ∈ (DeleteEvent bi json id pubkey).effects →
      bi.invokes item = [Callback.failure res (some e)] →
        (DeleteEvent bi json id pubkey).outcome = Outcome.returned (some e)) ∧
    (∀ (event : Option Event) (item : BulkIndexerItem) (res : BulkIndexerResponseItem),
      Effect.add item none ∈ (SaveEvent bi json event).effects →
      bi.invokes item = [Callback.success res] →
        (SaveEvent bi json event).outcome = Outcome.returned none) ∧
    (∀ (event : Option Event) (item : BulkIndexerItem) (res : BulkIndexerResponseItem)
      (e : String),
      Effect.add item none ∈ (SaveEvent bi json event).effects →
      bi.invokes item = [Callback.failure res (some e)] →
        (SaveEvent bi json event).outcome = Outcome.returned (some e)) := by
  refine ⟨?_, ?_, ?_, ?_⟩
  · intro id pubkey item res hacc hcb
    obtain ⟨hitem, hrun⟩ := deleteEvent_of_accepted _ _ _ _ _ hacc
    subst hitem
    rw [hrun, BulkIndexer.deliver, hcb]
    exact (awaitDone_single "DEL" _ ChanOp.close).1
  · intro id pubkey item res e hacc hcb
    obtain ⟨hitem, hrun⟩ := deleteEvent_of_accepted _ _ _ _ _ hacc
    subst hitem
    rw [hrun, BulkIndexer.deliver, hcb]
    exact (awaitDone_single "DEL" _ (ChanOp.send (some e))).1
  · intro event item res hacc hcb
    obtain ⟨⟨ev, data, hitem⟩, hrun⟩ := saveEvent_of_accepted _ _ _ _ hacc
    subst hitem
    rw [hrun, BulkIndexer.deliver, hcb]
    exact (awaitDone_single "SAVE" _ ChanOp.close).1
  · intro event item res e hacc hcb
    obtain ⟨⟨ev, data, hitem⟩, hrun⟩ := saveEvent_of_accepted _ _ _ _ hacc
    subst hitem
    rw [hrun, BulkIndexer.deliver, hcb]
    exact (awaitDone_single "SAVE" _ (ChanOp.send (some e))).1

theorem returned_value_is_posted_outcome_witness :
    (DeleteEvent (acceptingIndexer (Callback.success (sampleResponse 200)))
        sampleJSON "abc" "p1").outcome = Outcome.returned none ∧
    (DeleteEvent (acceptingIndexer (Callback.failure (sampleResponse 0) (some "timeout")))
        sampleJSON "abc" "p1").outcome = Outcome.returned (some "timeout") ∧
    (SaveEvent (acceptingIndexer (Callback.success (sampleResponse 201)))
        sampleJSON (some sampleEvent)).outcome = Outcome.returned none ∧
    (SaveEvent (acceptingIndexer (Callback.failure (sampleResponse 0) (some "timeout")))
        sampleJSON (some sampleEvent)).outcome = Outcome.returned (some "timeout") :=
  ⟨(returned_value_is_posted_outcome _ sampleJSON).1 "abc" "p1"
      (deleteItem sampleJSON "abc") (sampleResponse 200) (List.mem_cons_self _ _) rfl,
   (returned_value_is_posted_outcome _ sampleJSON).2.1 "abc" "p1"
      (deleteItem sampleJSON "abc") (sampleResponse 0) "timeout" (List.mem_cons_self _ _) rfl,
   (returned_value_is_posted_outcome _ sampleJSON).2.2.1 (some sampleEvent)
      (saveItem sampleEvent "data") (sampleResponse 201) (List.mem_cons_self _ _) rfl,
   (returned_value_is_posted_outcome _ sampleJSON).2.2.2 (some sampleEvent)
      (saveItem sampleEvent "data") (sampleResponse 0) "timeout" (List.mem_cons_self _ _) rfl⟩

/-- C5: for an accepted request whose failure callback is invoked, `SaveEvent` returns a
non-nil error for every callback input, and `DeleteEvent` returns a non-nil error for
every callback input other than `err = nil` with status 404; in particular for a non-nil
`err` with status 404 and for a nil `err` with a status other than 404. -/
theorem failed_item_reports_error (bi : BulkIndexer) (json : JSON) :
    (∀ (event : Option Event) (item : BulkIndexerItem) (res : BulkIndexerResponseItem)
      (err : GoError),
      Effect.add item none ∈ (SaveEvent bi json event).effects →
      bi.invokes item = [Callback.failure res err] →
        ∃ m, (SaveEvent bi json event).outcome = Outcome.returned (some m)) ∧
    (∀ (id pubkey : String) (item : BulkIndexerItem) (res : BulkIndexerResponseItem)
      (err : GoError),
      Effect.add item none ∈ (DeleteEvent bi json id pubkey).effects →
      bi.invokes item = [Callback.failure res err] →
      ¬ (err = none ∧ res.Status = 404) →
        ∃ m, (DeleteEvent bi json id pubkey).outcome = Outcome.returned (some m)) ∧
    (∀ (id pubkey : String) (item : BulkIndexerItem) (res : BulkIndexerResponseItem)
      (e : String),
      Effect.add item none ∈ (DeleteEvent bi json id pubkey).effects →
      bi.invokes item = [Callback.failure res (some e)] →
      res.Status = 404 →
        ∃ m, (DeleteEvent bi json id pubkey).outcome = Outcome.returned (some m)) ∧
    (∀ (id pubkey : String) (item : BulkIndexerItem) (res : BulkIndexerResponseItem),
      Effect.add item none ∈ (DeleteEvent bi json id pubkey).effects →
      bi.invokes item = [Callback.failure res none] →
      res.Status ≠ 404 →
        ∃ m, (DeleteEvent bi json id pubkey).outcome = Outcome.returned (some m)) := by
  have hdel : ∀ (id pubkey : String) (item : BulkIndexerItem)
      (res : BulkIndexerResponseItem) (err : GoError),
      Effect.add item none ∈ (DeleteEvent bi json id pubkey).effects →
      bi.invokes item = [Callback.failure res err] →
      ¬ (err = none ∧ res.Status = 404) →
        ∃ m, (DeleteEvent bi json id pubkey).outcome = Outcome.returned (some m) := by
    intro id pubkey item res err hacc hcb hne
    obtain ⟨hitem, hrun⟩ := deleteEvent_of_accepted _ _ _ _ _ hacc
    subst hitem
    rw [hrun, BulkIndexer.deliver, hcb]
    cases err with
    | some e => exact ⟨e, (awaitDone_single "DEL" _ (ChanOp.send (some e))).1⟩
    | none =>
      have hs : res.Status ≠ 404 := fun h => hne ⟨rfl, h⟩
      refine ⟨"ERROR: " ++ (json.MarshalResponse res).1, ?_⟩
      simp [Callback.run, deleteItem, deleteOnFailure, hs, Errorf, awaitDone, chanRecv]
  refine ⟨?_, hdel, ?_, ?_⟩
  · intro event item res err hacc hcb
    obtain ⟨⟨ev, data, hitem⟩, hrun⟩ := saveEvent_of_accepted _ _ _ _ hacc
    subst hitem
    rw [hrun, BulkIndexer.deliver, hcb]
    cases err with
    | some e => exact ⟨e, (awaitDone_single "SAVE" _ (ChanOp.send (some e))).1⟩
    | none =>
      exact ⟨"ERROR: " ++ res.Error.Typ ++ ": " ++ res.Error.Reason,
        (awaitDone_single "SAVE" _ (ChanOp.send (some _))).1⟩
  · intro id pubkey item res e hacc hcb _
    exact hdel id pubkey item res (some e) hacc hcb (fun h => Option.noConfusion h.1)
  · intro id pubkey item res hacc hcb hs
    exact hdel id pubkey item res none hacc hcb (fun h => hs h.2)

theorem failed_item_reports_error_witness :
    (∃ m, (SaveEvent (acceptingIndexer (Callback.failure (sampleResponse 404) none))
        sampleJSON (some sampleEvent)).outcome = Outcome.returned (some m)) ∧
    (∃ m, (DeleteEvent (acceptingIndexer (Callback.failure (sampleResponse 500) none))
        sampleJSON "abc" "p1").outcome = Outcome.returned (some m)) ∧
    (∃ m, (DeleteEvent (acceptingIndexer (Callback.failure (sampleResponse 404) (some "eof")))
        sampleJSON "abc" "p1").outcome = Outcome.returned (some m)) ∧
    (∃ m, (DeleteEvent (acceptingIndexer (Callback.failure (sampleResponse 403) none))
        sampleJSON "abc" "p1").outcome = Outcome.returned (some m)) :=
  ⟨(failed_item_reports_error _ sampleJSON).1 (some sampleEvent)
      (saveItem sampleEvent "data") (sampleResponse 404) none (List.mem_cons_self _ _) rfl,
   (failed_item_reports_error _ sampleJSON).2.1 "abc" "p1" (deleteItem sampleJSON "abc")
      (sampleResponse 500) none (List.mem_cons_self _ _) rfl (by decide),
   (failed_item_reports_error _ sampleJSON).2.2.1 "abc" "p1" (deleteItem sampleJSON "abc")
      (sampleResponse 404) "eof" (List.mem_cons_self _ _) rfl rfl,
   (failed_item_reports_error _ sampleJSON).2.2.2 "abc" "p1" (deleteItem sampleJSON "abc")
      (sampleResponse 403) (List.mem_cons_self _ _) rfl (by decide)⟩

/-- C10: `DeleteEvent` does not read the author id: with the same indexer, two calls
for the same id are the same run (same returned value, same effects), and the first
thing every run does is to submit the item with action "delete", document id `id` and
no body. -/
theorem deleteEvent_ignores_pubkey (bi : BulkIndexer) (json : JSON) (id p1 p2 : String) :
    DeleteEvent bi json id p1 = DeleteEvent bi json id p2 ∧
    (DeleteEvent bi json id p1).effects.head? =
      some (Effect.add (deleteItem json id) (bi.Add (deleteItem json id))) ∧
    (DeleteEvent bi json id p2).effects.head? =
      some (Effect.add (deleteItem json id) (bi.Add (deleteItem json id))) ∧
    (DeleteEvent bi json id p1).effects.countP Effect.isAdd = 1 ∧
    (deleteItem json id).Action = "delete" ∧
    (deleteItem json id).DocumentID = id ∧
    (deleteItem json id).Body = none := by
  have hhead : ∀ p, (DeleteEvent bi json id p).effects.head? =
      some (Effect.add (deleteItem json id) (bi.Add (deleteItem json id))) := by
    intro p
    unfold DeleteEvent
    cases hadd : bi.Add (deleteItem json id) with
    | some e => simp [hadd]
    | none =>
      simp only [awaitDone, hadd]
      cases hr : chanRecv (bi.deliver (deleteItem json id)) with
      | none => simp
      | some q =>
        obtain ⟨err, rest⟩ := q
        cases err <;> simp
  have hcount : (DeleteEvent bi json id p1).effects.countP Effect.isAdd = 1 := by
    unfold DeleteEvent
    cases hadd : bi.Add (deleteItem json id) with
    | some e => simp [hadd, Effect.isAdd]
    | none =>
      simp only [awaitDone, hadd]
      cases hr : chanRecv (bi.deliver (deleteItem json id)) with
      | none => simp [Effect.isAdd]
      | some q =>
        obtain ⟨err, rest⟩ := q
        cases err <;> simp [Effect.isAdd]
  exact ⟨rfl, hhead p1, hhead p2, hcount, rfl, rfl, rfl⟩

/-- `startsWith s sub` holds exactly when `s` is `sub` followed by something. -/
theorem startsWith_iff (s sub : List Char) :
    startsWith s sub = true ↔ ∃ post, s = sub ++ post := by
  induction sub generalizing s with
  | nil => simp [startsWith]
  | cons d sub ih =>
    cases s with
    | nil => simp [startsWith]
    | cons c s =>
      simp only [startsWith, Bool.and_eq_true, beq_iff_eq, ih, List.cons_append,
        List.cons.injEq]
      constructor
      · rintro ⟨h, post, hp⟩
        exact ⟨post, h, hp⟩
      · rintro ⟨post, h, hp⟩
        exact ⟨h, post, hp⟩

/-- `containsChars s sub` holds exactly when `sub` is a block of consecutive characters
of `s`. -/
theorem containsChars_iff (s sub : List Char) :
    containsChars s sub = true ↔ ∃ pre post, s = pre ++ sub ++ post := by
  induction s with
  | nil =>
    simp only [containsChars, startsWith_iff]
    constructor
    · rintro ⟨post, h⟩
      exact ⟨[], post, by simpa using h⟩
    · rintro ⟨pre, post, h⟩
      have h2 : pre ++ sub ++ post = [] := h.symm
      simp only [List.append_eq_nil] at h2
      exact ⟨[], by simp [h2.1.2]⟩
  | cons c s ih =>
    simp only [containsChars, Bool.or_eq_true, startsWith_iff, ih]
    constructor
    · rintro (⟨post, h⟩ | ⟨pre, post, h⟩)
      · exact ⟨[], post, by simpa using h⟩
      · exact ⟨c :: pre, post, by simp [h]⟩
    · rintro ⟨pre, post, h⟩
      cases pre with
      | nil => exact Or.inl ⟨post, by simpa using h⟩
      | cons p pre =>
        simp only [List.cons_append, List.cons.injEq] at h
        exact Or.inr ⟨pre, post, h.2⟩

/-- C9: in `Init`, when the create-index request yields an error response: if its body
contains "resource_already_exists_exception", `Init` returns no error for it and goes on
to create the bulk indexer (returning nil and keeping it once it is created); if the
body does not contain that text, `Init` returns an error whose text is the body and
never creates the bulk indexer. -/
theorem init_create_error_response (lib : ElasticLibrary) (ess : ElasticsearchStorage)
    (res : CreateResponse)
    (hclient : lib.NewDefaultClient = none)
    (hcreate : lib.Create "test" indexMapping = (res, none))
    (herr : res.IsError = true) :
    (stringsContains res.Body "resource_already_exists_exception" = true →
      (∀ m, (Init lib ess).outcome ≠ InitOutcome.returned (some m)) ∧
      InitEffect.newBulkIndexer
        { Index := "test", NumWorkers := 2, FlushInterval := 3 * timeSecond }
          ∈ (Init lib ess).effects ∧
      (lib.NewBulkIndexer
        { Index := "test", NumWorkers := 2, FlushInterval := 3 * timeSecond } = none →
          (Init lib ess).outcome = InitOutcome.returned none ∧
          (Init lib ess).ess.bi = true)) ∧
    (stringsContains res.Body "resource_already_exists_exception" = false →
      (Init lib ess).outcome = InitOutcome.returned (some res.Body) ∧
      (∀ cfg, InitEffect.newBulkIndexer cfg ∉ (Init lib ess).effects) ∧
      (Init lib ess).ess.bi = ess.bi) := by
  constructor
  · intro hc
    unfold Init
    simp only [hclient, hcreate, herr, hc]
    cases hbi : lib.NewBulkIndexer
        { Index := "test", NumWorkers := 2, FlushInterval := 3 * timeSecond } <;>
      simp [startBulkIndexer, hbi]
  · intro hc
    unfold Init
    simp only [hclient, hcreate, herr, hc]
    simp [Errorf]

theorem init_create_error_response_witness :
    ((Init (sampleLibrary ⟨true, "resource_already_exists_exception: index test"⟩)
        emptyStorage).outcome = InitOutcome.returned none ∧
      (Init (sampleLibrary ⟨true, "resource_already_exists_exception: index test"⟩)
        emptyStorage).ess.bi = true) ∧
    (Init (sampleLibrary ⟨true, "invalid"⟩) emptyStorage).outcome
      = InitOutcome.returned (some "invalid") :=
  ⟨((init_create_error_response
      (sampleLibrary ⟨true, "resource_already_exists_exception: index test"⟩) emptyStorage
      ⟨true, "resource_already_exists_exception: index test"⟩ rfl rfl rfl).1
        (by decide)).2.2 rfl,
   ((init_create_error_response (sampleLibrary ⟨true, "invalid"⟩) emptyStorage
      ⟨true, "invalid"⟩ rfl rfl rfl).2 (by decide)).1⟩

end Elasticsearch

/-- C8: `SendEvent(s, e)` is `WriteJSON` applied to the envelope with subscription
identifier `s` and event `e`; on a connection whose write guard is free it performs the
single guarded transport write of that envelope and returns what the transport
returned. -/
theorem sendEvent_is_writeJSON_of_envelope {σ : Type} (c : Conn σ) (subscriptionId : String)
    (event : Event) (s : WsState σ) :
    SendEvent c subscriptionId event s =
      WriteJSON c (Any.eventEnvelope ⟨some subscriptionId, event⟩) s ∧
    (s.ws.mutex = false → ∃ s2,
      SendEvent c subscriptionId event s = some (s2,
        (c.WriteJSON s.ws.conn (Any.eventEnvelope ⟨some subscriptionId, event⟩)).2) ∧
      s2.effects = s.effects ++ [WsEffect.lock,
        WsEffect.connWriteJSON (Any.eventEnvelope ⟨some subscriptionId, event⟩),
        WsEffect.unlock] ∧
      s2.ws.conn =
        (c.WriteJSON s.ws.conn (Any.eventEnvelope ⟨some subscriptionId, event⟩)).1 ∧
      s2.ws.mutex = false) := by
  refine ⟨rfl, ?_⟩
  intro hfree
  simp [SendEvent, WriteJSON, mutexLock, hfree, connWriteJSON, mutexUnlock]

theorem sendEvent_is_writeJSON_of_envelope_witness :
    ∃ s2, SendEvent (sampleConn 1) "sub1" Elasticsearch.sampleEvent sampleSocket
        = some (s2, ((sampleConn 1).WriteJSON sampleSocket.ws.conn
            (Any.eventEnvelope ⟨some "sub1", Elasticsearch.sampleEvent⟩)).2) ∧
      s2.effects = sampleSocket.effects ++ [WsEffect.lock,
        WsEffect.connWriteJSON (Any.eventEnvelope ⟨some "sub1", Elasticsearch.sampleEvent⟩),
        WsEffect.unlock] ∧
      s2.ws.conn = ((sampleConn 1).WriteJSON sampleSocket.ws.conn
        (Any.eventEnvelope ⟨some "sub1", Elasticsearch.sampleEvent⟩)).1 ∧
      s2.ws.mutex = false :=
  (sendEvent_is_writeJSON_of_envelope (sampleConn 1) "sub1" Elasticsearch.sampleEvent
    sampleSocket).2 rfl

/-- Reading a transport history extended by one event. -/
theorem wireScan_concat (wire : List WireEvent) (e : WireEvent) :
    wireScan (wire ++ [e]) = wireStep (wireScan wire) e := by
  simp [wireScan, List.foldl_append]

/-- Under the invariant, a producer that is past `Lock` is the holder of the guard. -/
theorem Inv.owner {s : Shared} (h : Inv s) {i : Nat} {p : Producer}
    (hp : s.producers[i]? = some p) (hpc : p.pc ≠ PC.atLock) :
    s.mutex = true ∧
      (∀ (j : Nat) (q : Producer), j ≠ i → s.producers[j]? = some q → q.pc = PC.atLock) ∧
      wireScan s.wire = some (if p.pc = PC.writing then some i else none) := by
  rcases h with ⟨_, hall, _⟩ | ⟨i0, p0, hm, hp0, _, hothers, hscan⟩
  · exact absurd (hall i p hp) hpc
  · by_cases hi : i = i0
    · subst hi
      rw [hp] at hp0
      cases hp0
      exact ⟨hm, hothers, hscan⟩
    · exact absurd (hothers i p hi hp) hpc

/-- The start state satisfies the invariant. -/
theorem inv_start (programs : List (List Call)) : Inv (start programs) := by
  refine Or.inl ⟨rfl, ?_, rfl⟩
  intro j q hq
  simp only [start, List.getElem?_map, Option.map_eq_some'] at hq
  obtain ⟨calls, _, rfl⟩ := hq
  rfl

/-- Every step keeps the invariant. -/
theorem inv_step (s : Shared) (i : Nat) (m : Move) (h : Inv s) : Inv (step s i m) := by
  unfold step
  cases hp : s.producers[i]? with
  | none => simpa only [hp] using h
  | some p =>
    simp only [hp]
    have hlt : i < s.producers.length := by
      rcases Nat.lt_or_ge i s.producers.length with hl | hl
      · exact hl
      · rw [List.getElem?_eq_none hl] at hp
        cases hp
    cases hc : p.calls with
    | nil => simpa only [hc] using h
    | cons c rest =>
      simp only [hc]
      cases hpc : p.pc <;> cases m <;> simp only [hpc]
      · -- Lock
        by_cases hm : s.mutex = true
        · simpa [hm] using h
        · have hfree : s.mutex = false := by simpa using hm
          simp only [hfree, Bool.false_eq_true, if_false]
          rcases h with ⟨_, hall, hscan⟩ | ⟨_, _, hm2, _⟩
          · refine Or.inr ⟨i, _, rfl, List.getElem?_set_self hlt, ?_, ?_, ?_⟩
            · simp
            · intro j q hj hq
              rw [List.getElem?_set_ne (Ne.symm hj)] at hq
              exact hall j q hq
            · simpa using hscan
          · rw [hfree] at hm2
            cases hm2
      · exact h
      · -- the transport write is entered
        obtain ⟨hm, hothers, hscan⟩ := h.owner hp (by rw [hpc]; decide)
        rw [hpc] at hscan
        refine Or.inr ⟨i, _, hm, List.getElem?_set_self hlt, ?_, ?_, ?_⟩
        · simp
        · intro j q hj hq
          rw [List.getElem?_set_ne (Ne.symm hj)] at hq
          exact hothers j q hj hq
        · simp only [wireScan_concat]
          rw [hscan]
          simp [wireStep]
      · exact h
      · -- the transport write returns
        obtain ⟨hm, hothers, hscan⟩ := h.owner hp (by rw [hpc]; decide)
        rw [hpc] at hscan
        refine Or.inr ⟨i, _, hm, List.getElem?_set_self hlt, ?_, ?_, ?_⟩
        · simp
        · intro j q hj hq
          rw [List.getElem?_set_ne (Ne.symm hj)] at hq
          exact hothers j q hj hq
        · simp only [wireScan_concat]
          rw [hscan]
          simp [wireStep]
      · -- bytes of the write in progress
        obtain ⟨hm, hothers, hscan⟩ := h.owner hp (by rw [hpc]; decide)
        rw [hpc] at hscan
        refine Or.inr ⟨i, p, hm, hp, by rw [hpc]; decide, hothers, ?_⟩
        simp only [wireScan_concat]
        rw [hscan, hpc]
        simp [wireStep]
      · -- Unlock
        obtain ⟨hm, hothers, hscan⟩ := h.owner hp (by rw [hpc]; decide)
        rw [hpc] at hscan
        refine Or.inl ⟨rfl, ?_, ?_⟩
        · intro j q hq
          by_cases hj : j = i
          · subst hj
            rw [List.getElem?_set_self hlt] at hq
            cases hq
            rfl
          · rw [List.getElem?_set_ne (Ne.symm hj)] at hq
            exact hothers j q hj hq
        · simpa using hscan
      · exact h

/-- A step neither adds nor removes a producer. -/
theorem step_length (s : Shared) (i : Nat) (m : Move) :
    (step s i m).producers.length = s.producers.length := by
  unfold step
  cases hp : s.producers[i]? with
  | none => simp only [hp]
  | some p =>
    simp only [hp]
    cases hc : p.calls with
    | nil => simp only [hc]
    | cons c rest =>
      simp only [hc]
      cases hpc : p.pc <;> cases m <;> simp only [hpc, List.length_set]
      split <;> simp only [List.length_set]

/-- A schedule neither adds nor removes a producer. -/
theorem run_length (schedule : List (Nat × Move)) (s : Shared) :
    (run s schedule).producers.length = s.producers.length := by
  induction schedule generalizing s with
  | nil => rfl
  | cons m rest ih =>
    have h := ih (step s m.1 m.2)
    rw [step_length] at h
    exact h

/-- Every state reached by a schedule satisfies the invariant. -/
theorem inv_run (schedule : List (Nat × Move)) (s : Shared) (h : Inv s) :
    Inv (run s schedule) := by
  induction schedule generalizing s with
  | nil => exact h
  | cons m rest ih => exact ih _ (inv_step s m.1 m.2 h)

/-- The sample schedule: the second producer, scheduled while the first one holds the
guard and writes, stays parked; its write begins after the first write has ended. -/
theorem sample_run_wire :
    (run (start samplePrograms) sampleSchedule).wire =
      [WireEvent.writeBegins 0 (WsEffect.connWriteJSON (Any.other "a")),
       WireEvent.bytes 0, WireEvent.bytes 0, WireEvent.writeEnds 0,
       WireEvent.writeBegins 1 (WsEffect.connWriteMessage 1 [104, 105]),
       WireEvent.bytes 1, WireEvent.writeEnds 1] := by
  decide

/-- C7: for any number of producers, each making any sequence of `WriteJSON`,
`WriteMessage` and `SendEvent` calls on one connection, and for every interleaving of
their steps: at most one producer is inside a transport write; when a producer is about
to enter its transport write no producer is inside one; and what happens on the
transport is a sequence of whole writes, each beginning while no other write is in
progress and each containing only bytes of its own message. -/
theorem transport_writes_mutually_exclusive (programs : List (List Call))
    (schedule : List (Nat × Move)) :
    (run (start programs) schedule).producers.length = programs.length ∧
    (∀ (i j : Nat) (p q : Producer),
      (run (start programs) schedule).producers[i]? = some p →
      (run (start programs) schedule).producers[j]? = some q →
      p.pc = PC.writing → q.pc = PC.writing → i = j) ∧
    (∀ (i j : Nat) (p q : Producer),
      (run (start programs) schedule).producers[i]? = some p →
      (run (start programs) schedule).producers[j]? = some q →
      p.pc = PC.holding → q.pc ≠ PC.writing) ∧
    serialised (run (start programs) schedule).wire = true := by
  have hinv := inv_run schedule (start programs) (inv_start programs)
  refine ⟨?_, ?_, ?_, ?_⟩
  · rw [run_length]
    simp [start]
  · intro i j p q hp hq hpw hqw
    obtain ⟨_, hothers, _⟩ := hinv.owner hp (by rw [hpw]; decide)
    by_contra hne
    have := hothers j q (fun h => hne h.symm) hq
    rw [hqw] at this
    cases this
  · intro i j p q hp hq hph hqw
    obtain ⟨_, hothers, _⟩ := hinv.owner hp (by rw [hph]; decide)
    by_cases hji : j = i
    · subst hji
      rw [hp] at hq
      cases hq
      rw [hph] at hqw
      cases hqw
    · have := hothers j q hji hq
      rw [hqw] at this
      cases this
  · rcases hinv with ⟨_, _, hscan⟩ | ⟨_, _, _, _, _, _, hscan⟩ <;>
      simp [serialised, hscan]

theorem transport_writes_mutually_exclusive_witness :
    (run (start samplePrograms) (sampleSchedule.take 2)).producers[0]? =
        some ⟨[Call.writeJSON (Any.other "a"),
          Call.sendEvent "sub1" Elasticsearch.sampleEvent], PC.holding⟩ ∧
    (run (start samplePrograms) (sampleSchedule.take 2)).producers[1]? =
        some ⟨[Call.writeMessage 1 [104, 105], Call.writeJSON (Any.other "b")], PC.atLock⟩ ∧
    (Producer.mk [Call.writeMessage 1 [104, 105], Call.writeJSON (Any.other "b")]
        PC.atLock).pc ≠ PC.writing ∧
    serialised (run (start samplePrograms) sampleSchedule).wire = true :=
  ⟨by decide, by decide,
    (transport_writes_mutually_exclusive samplePrograms (sampleSchedule.take 2)).2.2.1 0 1
      ⟨[Call.writeJSON (Any.other "a"), Call.sendEvent "sub1" Elasticsearch.sampleEvent],
        PC.holding⟩
      ⟨[Call.writeMessage 1 [104, 105], Call.writeJSON (Any.other "b")], PC.atLock⟩
      (by decide) (by decide) rfl,
    (transport_writes_mutually_exclusive samplePrograms sampleSchedule).2.2.2⟩

end Khatru
